import Mathlib

/-!
Verification of the mockingjay route compilation/matching engine and request
dispatcher against its specification.

The development shallowly embeds the Go sources:
  * internal/router (Route, HeaderMatcher, RouteMatch, MatchRequest and its
    helpers, the route Compiler),
  * internal/config (RouteConfig and the regex-delimiter convention),
  * internal/server (findMatchingRoute, renderResponseHeaders, ReloadConfig,
    and the bounded render of ServeHTTP).

External collaborators (Go's regexp package, the template engine, YAML
loading) are modelled at their interface: the regexp package by a small
executable backtracking engine with Go's leftmost-first search semantics and
named capture groups, the template engine by abstract compile/execute
functions supplied as parameters.
-/

deriving instance DecidableEq for Except

namespace Mockingjay

/-! ### Go string primitives used by the sources -/

/-- Character-wise lowercase of a string; models Go strings.ToLower on the
ASCII range (Char.toLower maps only ASCII letters, as all header names and
methods in this system are ASCII). -/
def lowerStr (s : String) : String :=
  String.mk (s.data.map Char.toLower)

/-- Character-wise uppercase of a string; models Go strings.ToUpper on the
ASCII range. -/
def upperStr (s : String) : String :=
  String.mk (s.data.map Char.toUpper)

/-- Whitespace predicate of Go's unicode.IsSpace restricted to the Latin-1
range: space, tab, newline, vertical tab, form feed, carriage return, NEL
and NBSP. -/
def goIsSpace (c : Char) : Bool :=
  c.toNat = 32 || c.toNat = 9 || c.toNat = 10 || c.toNat = 11 ||
  c.toNat = 12 || c.toNat = 13 || c.toNat = 133 || c.toNat = 160

/-- Models Go strings.TrimSpace: remove leading and trailing whitespace. -/
def goTrimSpace (s : String) : String :=
  String.mk (((s.data.dropWhile goIsSpace).reverse.dropWhile goIsSpace).reverse)

/-- Models Go strings.EqualFold (ASCII simple case folding): the two strings
are equal after lowercasing. -/
def eqFold (a b : String) : Bool :=
  lowerStr a == lowerStr b

/-- Update of an association list at a key, replacing an existing binding or
appending a fresh one; models assignment `m[k] = v` on a Go map whose
contents are read back with lookups. -/
def assocSet {α β : Type} [BEq α] : List (α × β) → α → β → List (α × β)
  | [], k, v => [(k, v)]
  | (k2, v2) :: rest, k, v =>
      if k2 == k then (k, v) :: rest else (k2, v2) :: assocSet rest k v

/-- Substring of a character list from position `a` (inclusive) to `b`
(exclusive), as a string. -/
def strSlice (s : List Char) (a b : Nat) : String :=
  String.mk ((s.drop a).take (b - a))

/-! ### A model of Go's regexp package

The repository treats regular expressions as an external collaborator
(`regexp.Compile`, `FindStringSubmatch`, `MatchString`, `SubexpNames`).  The
model below implements the observable semantics those calls rely on: a
backtracking matcher producing candidate matches in Go's leftmost-first
priority order (earliest starting offset wins; at equal offset, the first
result a backtracking search finds), with capture groups recorded by index.
-/

/-- Abstract syntax of the regular expressions appearing in route and header
patterns: characters, character classes, anchors, concatenation,
alternation, Kleene star and (possibly named, tracked by index) groups. -/
inductive Regex where
  | eps : Regex
  | char (c : Char) : Regex
  | cls (neg : Bool) (ranges : List (Char × Char)) : Regex
  | begAnchor : Regex
  | endAnchor : Regex
  | seq (a b : Regex) : Regex
  | alt (a b : Regex) : Regex
  | star (a : Regex) : Regex
  | group (idx : Nat) (a : Regex) : Regex
deriving DecidableEq, Repr

/-- Captured spans of a candidate match: group index to (start, stop). -/
abbrev Caps := List (Nat × Nat × Nat)

/-- Backtracking matcher: all ways to match `r` in `s` starting at `pos`,
as `(end position, captures)` pairs in backtracking priority order
(alternation prefers its left branch, star is greedy).  `fuel` bounds the
recursion depth (structurally, so the matcher evaluates by reduction); star
iterations must consume input, as in RE2.  Call sites pass enough fuel for
the bound never to bite. -/
def matchR (s : List Char) : Nat → Regex → Nat → Caps → List (Nat × Caps)
  | 0, _, _, _ => []
  | _ + 1, Regex.eps, pos, caps => [(pos, caps)]
  | _ + 1, Regex.char c, pos, caps =>
      match s.get? pos with
      | some c2 => if c2 = c then [(pos + 1, caps)] else []
      | none => []
  | _ + 1, Regex.cls neg ranges, pos, caps =>
      match s.get? pos with
      | some c2 =>
          if (ranges.any fun rg => decide (rg.1.toNat ≤ c2.toNat) && decide (c2.toNat ≤ rg.2.toNat)) != neg
          then [(pos + 1, caps)] else []
      | none => []
  | _ + 1, Regex.begAnchor, pos, caps => if pos = 0 then [(pos, caps)] else []
  | _ + 1, Regex.endAnchor, pos, caps => if pos = s.length then [(pos, caps)] else []
  | fuel + 1, Regex.seq a b, pos, caps =>
      (matchR s fuel a pos caps).flatMap fun pc => matchR s fuel b pc.1 pc.2
  | fuel + 1, Regex.alt a b, pos, caps =>
      matchR s fuel a pos caps ++ matchR s fuel b pos caps
  | fuel + 1, Regex.star a, pos, caps =>
      (((matchR s fuel a pos caps).filter fun pc => decide (pos < pc.1)).flatMap fun pc =>
        matchR s fuel (Regex.star a) pc.1 pc.2) ++ [(pos, caps)]
  | fuel + 1, Regex.group i a, pos, caps =>
      (matchR s fuel a pos caps).map fun pc => (pc.1, assocSet pc.2 i (pos, pc.1))

/-- Structural size of a pattern, used to compute the matcher fuel. -/
def Regex.size : Regex -> Nat
  | .eps | .char _ | .cls _ _ | .begAnchor | .endAnchor => 1
  | .seq a b | .alt a b => a.size + b.size + 1
  | .star a | .group _ a => a.size + 1

/-- Fuel that lets `matchR` explore every candidate of `re` on `s`: star
iterations consume at least one character each, so recursion depth is
bounded by the pattern size times the input length. -/
def matchFuel (re : Regex) (s : List Char) : Nat :=
  (re.size + 2) * (s.length + 2)

/-- A compiled Go regular expression: the pattern syntax, the number of
capture groups, and `SubexpNames` (entry 0 is the empty string, entry i the
name of group i or the empty string when the group is unnamed). -/
structure GoRegexp where
  re : Regex
  numGroups : Nat
  names : List String
deriving DecidableEq, Repr

/-- Leftmost-first search over all starting offsets: the earliest offset at
which the pattern matches, together with the end position and captures of
the first candidate in backtracking order; models the search underlying
Go's Find/Match calls. -/
def GoRegexp.findFirst (re : GoRegexp) (s : List Char) : Option (Nat × Nat × Caps) :=
  (List.range (s.length + 1)).findSome? fun st =>
    match (matchR s (matchFuel re.re s) re.re st []).head? with
    | some pc => some (st, pc.1, pc.2)
    | none => none

/-- Submatch slice of a successful find: entry 0 is the whole match, entry i
the text of group i, the empty string for groups that did not participate;
models the contents of Go's FindStringSubmatch result. -/
def buildSubmatches (re : GoRegexp) (s : List Char) (st en : Nat) (caps : Caps) : List String :=
  (List.range (re.numGroups + 1)).map fun i =>
    if i = 0 then strSlice s st en
    else
      match caps.lookup i with
      | some ab => strSlice s ab.1 ab.2
      | none => ""

/-- Models Go (\*Regexp).FindStringSubmatch: none when the pattern matches
nowhere in the string, otherwise the submatch slice of the leftmost-first
match. -/
def GoRegexp.findStringSubmatch (re : GoRegexp) (s : String) : Option (List String) :=
  match re.findFirst s.data with
  | none => none
  | some (st, en, caps) => some (buildSubmatches re s.data st en caps)

/-- Models Go (\*Regexp).MatchString: the pattern matches somewhere in the
string. -/
def GoRegexp.matchString (re : GoRegexp) (s : String) : Bool :=
  (re.findFirst s.data).isSome

/-- Modelled from the spec's words ("regex full match", "the entire request
path matches"): the pattern matches the whole string, from position 0 to its
end.  Used to compare the specified path-check semantics with the
implemented one. -/
def GoRegexp.fullMatch (re : GoRegexp) (s : String) : Bool :=
  (matchR s.data (matchFuel re.re s.data) re.re 0 []).any fun pc => pc.1 == s.data.length

/-! ### internal/router: compiled routes and request matching -/

/-- HeaderMatcher of internal/router: a compiled header matching rule,
either a regex or a literal comparison (route_test.go embedded source,
lines 1154-1158). -/
structure HeaderMatcher where
  isRegex : Bool
  regex : Option GoRegexp
  literal : String
deriving DecidableEq, Repr

/-- Route of internal/router: a compiled route ready for matching
(route_test.go embedded source, lines 1161-1181).  A compiled template is
modelled by an abstract string handle produced by the engine. -/
structure Route where
  pattern : String
  verb : String
  isRegexp : Bool
  regex : Option GoRegexp
  matchHeaders : List (String × HeaderMatcher)
  tmpl : String
  responseHeaders : List (String × String)
  templateSource : String
deriving DecidableEq, Repr

/-- RouteMatch: the result of matching a route against a request.  The
`params` map is the extracted named capture groups (a Go map modelled as an
association list; it is allocated in every success path, hence never nil). -/
structure RouteMatch where
  route : Route
  params : List (String × String)
deriving DecidableEq, Repr

/-- The request data consulted by the matching engine: method, URL path and
headers (http.Header: name to list of values). -/
structure Request where
  method : String
  path : String
  header : List (String × List String)
deriving DecidableEq, Repr

/-- getHeaderIgnoreCase: first header whose lowercased name equals the
lowercased wanted name and whose value list is non-empty; its first value,
or the empty string when no such header exists. -/
def getHeaderIgnoreCase (req : Request) (name : String) : String :=
  match req.header.find? (fun e => (lowerStr e.1 == lowerStr name) && !(e.2.isEmpty)) with
  | some e => e.2.headD ""
  | none => ""

/-- matchesVerb: case-insensitive comparison (strings.EqualFold) of the
route verb with the request method. -/
def Route.matchesVerb (r : Route) (method : String) : Bool :=
  eqFold r.verb method

/-- matchHeaderValue: regex matchers use MatchString on the value, literal
matchers require exact (case-sensitive) string equality.  A nil regex (never
produced by the compiler for a regex matcher) matches nothing. -/
def matchHeaderValue (m : HeaderMatcher) (v : String) : Bool :=
  if m.isRegex then
    match m.regex with
    | some re => re.matchString v
    | none => false
  else
    v == m.literal

/-- matchesHeaders: every configured header matcher must be satisfied by the
request; a header that is missing (or whose looked-up value is the empty
string) fails its matcher. -/
def Route.matchesHeaders (r : Route) (req : Request) : Bool :=
  r.matchHeaders.all fun nm =>
    let v := getHeaderIgnoreCase req nm.1
    if v = "" then false else matchHeaderValue nm.2 v

/-- The parameter-extraction loop of matchRegexPattern: for each index i and
name in SubexpNames, when 0 < i, i is within the submatch slice and the name
is non-empty, assign params[name] = subm[i]. -/
def buildParamsFrom (subm : List String) : Nat → List String → List (String × String) → List (String × String)
  | _, [], acc => acc
  | i, name :: rest, acc =>
      buildParamsFrom subm (i + 1) rest
        (if 0 < i ∧ i < subm.length ∧ name ≠ "" then assocSet acc name (subm.getD i "") else acc)

/-- matchRegexPattern: nil regex never subm; otherwise FindStringSubmatch
decides the path check and the named capture groups are copied into the
parameter map. -/
def Route.matchRegexPattern (r : Route) (path : String) : Option RouteMatch :=
  match r.regex with
  | none => none
  | some re =>
      match re.findStringSubmatch path with
      | none => none
      | some subm =>
          some { route := r, params := buildParamsFrom subm 0 re.names [] }

/-- matchLiteralPattern: the request path must equal the route pattern
exactly; a literal match carries an empty parameter map. -/
def Route.matchLiteralPattern (r : Route) (path : String) : Option RouteMatch :=
  if path = r.pattern then some { route := r, params := [] } else none

/-- MatchRequest: verb check first, then the path check (regex or literal
according to the route kind), then the header matchers; all three must
pass. -/
def Route.MatchRequest (r : Route) (req : Request) : Option RouteMatch :=
  if r.matchesVerb req.method then
    match (if r.isRegexp then r.matchRegexPattern req.path else r.matchLiteralPattern req.path) with
    | none => none
    | some m => if r.matchesHeaders req then some m else none
  else
    none

/-- findMatchingRoute of internal/server: the first route in declaration
order whose MatchRequest succeeds, or none. -/
def findMatchingRoute (routes : List Route) (req : Request) : Option RouteMatch :=
  routes.findSome? fun rt => rt.MatchRequest req

/-! ### internal/config: route declarations and the regex-delimiter convention -/

/-- RouteConfig: a single route declaration (path pattern, verb, optional
inline template or template file, header predicates, response-header
templates).  Go maps are modelled as association lists. -/
structure RouteConfig where
  path : String
  verb : String
  template : String
  templateFile : String
  matchHeaders : List (String × String)
  responseHeaders : List (String × String)
deriving DecidableEq, Repr

/-- IsRegexPattern: the path is treated as a regex when it starts and ends
with a slash and is longer than two characters. -/
def RouteConfig.IsRegexPattern (r : RouteConfig) : Bool :=
  "/".data.isPrefixOf r.path.data && "/".data.isSuffixOf r.path.data && decide (r.path.length > 2)

/-- GetRegexPattern: the regex pattern with the surrounding slashes removed
(TrimPrefix then TrimSuffix by one slash). -/
def RouteConfig.GetRegexPattern (r : RouteConfig) : String :=
  if r.IsRegexPattern then
    String.mk ((r.path.data.drop 1).take (r.path.data.length - 2))
  else r.path

/-- GetNormalizedVerb: the configured verb, trimmed and uppercased. -/
def RouteConfig.GetNormalizedVerb (r : RouteConfig) : String :=
  upperStr (goTrimSpace r.verb)

/-- canonicalizeHeaderName: trimmed, lowercased header name. -/
def canonicalizeHeaderName (name : String) : String :=
  lowerStr (goTrimSpace name)

/-- isHeaderRegexPattern: a header value is a regex when wrapped in slashes
and longer than two characters (same delimiter convention as paths). -/
def isHeaderRegexPattern (value : String) : Bool :=
  "/".data.isPrefixOf value.data && "/".data.isSuffixOf value.data && decide (value.length > 2)

/-- extractHeaderRegexPattern: the header regex with surrounding slashes
removed. -/
def extractHeaderRegexPattern (value : String) : String :=
  if isHeaderRegexPattern value then
    String.mk ((value.data.drop 1).take (value.data.length - 2))
  else value

/-! ### internal/router: the route Compiler -/

/-- The template engine collaborator: inline and file compilation, each
returning a compiled-template handle or a compile error. -/
structure Engine where
  compileInline : String → String → Except String String
  compileFile : String → Except String String

/-- Characters the template-name sanitizer replaces with underscores. -/
def sanitizeReplaced : List Char :=
  ['/', '?', '*', '+', '-', '(', ')', '[', ']', Char.ofNat 123, Char.ofNat 125,
   '^', '$', '|', '\\', '.', ' ']

/-- One ReplaceAll pass turning each occurrence of a double underscore into
a single underscore. -/
def replaceUU : List Char → List Char
  | c1 :: c2 :: rest =>
      if c1 = '_' ∧ c2 = '_' then '_' :: replaceUU rest
      else c1 :: replaceUU (c2 :: rest)
  | l => l

/-- Does the character list contain a double underscore? -/
def hasUU : List Char → Bool
  | c1 :: c2 :: rest => (c1 = '_' && c2 = '_') || hasUU (c2 :: rest)
  | _ => false

/-- The collapse loop of sanitizeTemplateName: replace double underscores
until none remain (fuelled; each pass shortens the list). -/
def collapseUU : Nat → List Char → List Char
  | 0, l => l
  | fuel + 1, l => if hasUU l then collapseUU fuel (replaceUU l) else l

/-- sanitizeTemplateName: replace problematic characters with underscores,
collapse runs of underscores, trim leading/trailing underscores, defaulting
to "unnamed" when nothing remains. -/
def sanitizeTemplateName (path : String) : String :=
  let replaced := path.data.map fun c => if c ∈ sanitizeReplaced then '_' else c
  let collapsed := collapseUU replaced.length replaced
  let trimmed := ((collapsed.dropWhile (· = '_')).reverse.dropWhile (· = '_')).reverse
  if trimmed = [] then "unnamed" else String.mk trimmed

/-- compileHeaderMatchers: each configured header becomes a HeaderMatcher
under its canonical name; values in the slash-delimiter convention are
compiled as regexes via the external regexp compiler `rx`, other values
become literal matchers. -/
def compileHeaderMatchers (rx : String → Except String GoRegexp) :
    List (String × String) → Except String (List (String × HeaderMatcher))
  | [] => .ok []
  | (name, value) :: rest =>
      match
        (if isHeaderRegexPattern value then
          match rx (extractHeaderRegexPattern value) with
          | .error e =>
              .error ("invalid regex pattern \"" ++ extractHeaderRegexPattern value ++
                "\" for header \"" ++ name ++ "\": " ++ e)
          | .ok re =>
              .ok (canonicalizeHeaderName name,
                   { isRegex := true, regex := some re, literal := "" })
        else
          .ok (canonicalizeHeaderName name,
               { isRegex := false, regex := none, literal := value }) :
          Except String (String × HeaderMatcher)) with
      | .error e => .error e
      | .ok entry =>
          match compileHeaderMatchers rx rest with
          | .error e => .error e
          | .ok entries => .ok (entry :: entries)

/-- compileResponseHeaders: each response header value is compiled as an
inline template under a sanitized name, stored under the canonical header
name. -/
def compileResponseHeaders (eng : Engine) (rc : RouteConfig) :
    List (String × String) → Except String (List (String × String))
  | [] => .ok []
  | (name, value) :: rest =>
      match eng.compileInline
          ("response_header_" ++ rc.GetNormalizedVerb ++ "_" ++
            sanitizeTemplateName rc.path ++ "_" ++ sanitizeTemplateName name) value with
      | .error e => .error ("failed to compile response header template for \"" ++ name ++ "\": " ++ e)
      | .ok handle =>
          match compileResponseHeaders eng rc rest with
          | .error e => .error e
          | .ok entries => .ok ((canonicalizeHeaderName name, handle) :: entries)

/-- compileTemplate: the inline template when present, else the template
file, else an error naming the missing source. -/
def compileTemplate (eng : Engine) (rc : RouteConfig) : Except String String :=
  if rc.template ≠ "" then
    eng.compileInline ("route_" ++ rc.GetNormalizedVerb ++ "_" ++ sanitizeTemplateName rc.path) rc.template
  else if rc.templateFile ≠ "" then
    eng.compileFile rc.templateFile
  else
    .error "no template source specified"

/-- CompileRoute: compile one RouteConfig into a Route, in source order:
path regex (when the path uses the delimiter convention), header matchers,
response-header templates, then the body template; the first failing step
aborts with a wrapped error naming the offending pattern. -/
def CompileRoute (eng : Engine) (rx : String → Except String GoRegexp)
    (rc : RouteConfig) : Except String Route :=
  match
    (if rc.IsRegexPattern then
      match rx rc.GetRegexPattern with
      | .error e => .error ("failed to compile regex pattern \"" ++ rc.GetRegexPattern ++ "\": " ++ e)
      | .ok re => .ok (some re)
    else .ok none : Except String (Option GoRegexp)) with
  | .error e => .error e
  | .ok regexOpt =>
      match compileHeaderMatchers rx rc.matchHeaders with
      | .error e => .error ("failed to compile header matchers for route \"" ++ rc.path ++ "\": " ++ e)
      | .ok hdrs =>
          match compileResponseHeaders eng rc rc.responseHeaders with
          | .error e => .error ("failed to compile response headers for route \"" ++ rc.path ++ "\": " ++ e)
          | .ok respHdrs =>
              match compileTemplate eng rc with
              | .error e => .error ("failed to compile template for route \"" ++ rc.path ++ "\": " ++ e)
              | .ok handle =>
                  .ok { pattern := rc.path
                        verb := rc.GetNormalizedVerb
                        isRegexp := rc.IsRegexPattern
                        regex := regexOpt
                        matchHeaders := hdrs
                        tmpl := handle
                        responseHeaders := respHdrs
                        templateSource := if rc.template ≠ "" then "inline" else rc.templateFile }

/-- The per-index loop of CompileRoutes: on the first failing spec the
whole compilation aborts with an error naming the route index, verb and
path; otherwise the compiled routes keep the declaration order. -/
def compileRoutesFrom (eng : Engine) (rx : String → Except String GoRegexp) :
    Nat → List RouteConfig → Except String (List Route)
  | _, [] => .ok []
  | i, rc :: rest =>
      match CompileRoute eng rx rc with
      | .error e =>
          .error ("failed to compile route " ++ toString i ++ " (" ++ rc.verb ++ " " ++ rc.path ++ "): " ++ e)
      | .ok r =>
          match compileRoutesFrom eng rx (i + 1) rest with
          | .error e => .error e
          | .ok rs => .ok (r :: rs)

/-- CompileRoutes: compile every route declaration in order.  In Go the
failure case returns the pair (nil, err); it is modelled by
`Except.error`, which carries no route list at all. -/
def CompileRoutes (eng : Engine) (rx : String → Except String GoRegexp)
    (cfgs : List RouteConfig) : Except String (List Route) :=
  compileRoutesFrom eng rx 0 cfgs

/-! ### internal/server: response-header rendering, reload, bounded render -/

/-- renderResponseHeaders: execute each response-header template against the
render context, trim the result, and set the header only when the trimmed
value is non-empty.  The response writer's header map is threaded as
explicit state; template execution is the external engine call `exec`. -/
def renderResponseHeaders {Tmpl Ctx : Type} (exec : Tmpl → Ctx → Except String String)
    (hdrs : List (String × Tmpl)) (ctx : Ctx)
    (hdrSt : List (String × String)) : Except String (List (String × String)) :=
  match hdrs with
  | [] => .ok hdrSt
  | (name, t) :: rest =>
      match exec t ctx with
      | .error e => .error ("failed to execute template for header \"" ++ name ++ "\": " ++ e)
      | .ok rendered =>
          let headerValue := goTrimSpace rendered
          renderResponseHeaders exec rest ctx
            (if headerValue ≠ "" then assocSet hdrSt name headerValue else hdrSt)

/-- The state ReloadConfig swaps under the write lock: compiled routes, the
template engine and the outward middleware-chain handler (stored both in
the server and as the HTTP server's handler). -/
structure ServerState (E H : Type) where
  routes : List Route
  engine : E
  middlewareChain : H
  httpHandler : H
deriving DecidableEq

/-- ReloadConfig: load the new configuration, recompile the routes, rebuild
the middleware chain — all off to the side — and only when every step
succeeded swap the whole state; any failure returns the wrapped error and
leaves the state untouched.  The three fallible steps are the external
collaborators (YAML load, compiler, middleware factory), passed as
values/functions. -/
def ReloadConfig {E H Cfg : Type} (s : ServerState E H)
    (load : Except String Cfg)
    (compileStep : Cfg → Except String (List Route × E))
    (chainStep : Cfg → Except String H) : ServerState E H × Option String :=
  match load with
  | .error e => (s, some ("failed to load config during reload: " ++ e))
  | .ok cfg =>
      match compileStep cfg with
      | .error e => (s, some ("failed to compile routes during reload: " ++ e))
      | .ok rtsEng =>
          match chainStep cfg with
          | .error e => (s, some ("failed to create middleware chain during reload: " ++ e))
          | .ok h =>
              ({ routes := rtsEng.1, engine := rtsEng.2, middlewareChain := h, httpHandler := h },
               none)

/-- Outcome of the body-render goroutine's work: ExecuteTemplate returned
(nil or an error), or the template code panicked. -/
inductive ExecOutcome where
  | normal (res : Option String)
  | panicked (v : String)
deriving DecidableEq, Repr

/-- The messages the render goroutine sends on templateDone: the recovered
panic is converted into an error send, otherwise the ExecuteTemplate result
is sent; exactly one send happens in every case. -/
def renderTaskSends : ExecOutcome → List (Option String)
  | .normal res => [res]
  | .panicked v => [some ("template execution panicked: " ++ v)]

/-- Capacity of the templateDone channel (`make(chan error, 1)`). -/
def templateDoneCapacity : Nat := 1

/-- With no receiver, a task performing `sends` sends on a channel of
capacity `cap` blocks exactly when the buffer cannot hold them all. -/
def sendsWouldBlock (cap sends : Nat) : Bool :=
  decide (cap < sends)

/-- An HTTP response as the dispatcher assembles it: status code, the
headers it sets, and the fully buffered body. -/
structure HttpResponse where
  status : Nat
  contentType : String
  body : String
deriving DecidableEq, Repr

/-- The fixed text of the 408 body, before the elapsed time is appended. -/
def timeoutBodyIntro : String :=
  "408 Request Timeout\n\nThe request exceeded the configured timeout and was terminated.\nTimeout occurred after: "

/-- Body of the 408 timeout response: the fixed message followed by the
elapsed time since the request started. -/
def timeoutBody (elapsed : String) : String :=
  timeoutBodyIntro ++ elapsed

/-- Which event the dispatcher's select observes first: the templateDone
message, or the request context's deadline (with the elapsed time at that
moment). -/
inductive SelectEvent where
  | templateDone (res : Option String)
  | ctxDone (elapsed : String)
deriving DecidableEq, Repr

/-- The select statement of ServeHTTP after headers are rendered: a nil
result writes the buffered body with 200; an error result writes the
template-error 500; deadline expiry writes the 408 timeout response at
once, from the elapsed time alone — the pending render task is not
consulted and not waited for. -/
def dispatchSelect (buffered : String) : SelectEvent → HttpResponse
  | .templateDone none => { status := 200, contentType := "", body := buffered }
  | .templateDone (some _) =>
      { status := 500, contentType := "text/plain; charset=utf-8",
        body := "500 Internal Server Error: response template cannot be rendered due to an error in the template\n" }
  | .ctxDone elapsed =>
      { status := 408, contentType := "text/plain; charset=utf-8", body := timeoutBody elapsed }

/-- Modelled from the spec ("extracted named-parameter map", "exactly one
entry per named sub-expression ... keyed by the group name, valued by the
captured substring, with unnamed capture groups contributing no entries"):
the expected parameter list for submatch slice `subm` and SubexpNames
`names`, starting at group index `i`. -/
def namedCapturesFrom (subm : List String) : Nat → List String → List (String × String)
  | _, [] => []
  | i, name :: rest =>
      (if 0 < i ∧ i < subm.length ∧ name ≠ "" then [(name, subm.getD i "")] else []) ++
      namedCapturesFrom subm (i + 1) rest

/-! ### Concrete instances used to witness the theorems -/

/-- Character class [0-9]. -/
def digitCls : Regex := .cls false [('0', '9')]

/-- Literal text as a regex (a sequence of single characters). -/
def litRe (s : String) : Regex :=
  s.data.foldr (fun c acc => Regex.seq (.char c) acc) .eps

/-- Compiled form of the spec's example pattern with a named group and
anchors at both ends. -/
def reUserId : GoRegexp :=
  { re := .seq .begAnchor
      (.seq (litRe "/user/") (.seq (.group 1 (.seq digitCls (.star digitCls))) .endAnchor)),
    numGroups := 1, names := ["", "id"] }

/-- Compiled form of the unanchored pattern: plain text with no anchors,
matching anywhere inside a string. -/
def reUserLit : GoRegexp := { re := litRe "user", numGroups := 0, names := [""] }

/-- A regex accepting the empty string (a starred character class). -/
def reEmptyOK : GoRegexp :=
  { re := .star (.cls false [('a', 'z')]), numGroups := 0, names := [""] }

/-- An identity template engine for witnesses: compilation always succeeds
and the handle is the template source itself. -/
def engId : Engine :=
  { compileInline := fun _ src => .ok src, compileFile := fun p => .ok p }

/-- A regexp-compiler stub for witnesses: it knows the example pattern and
rejects everything else. -/
def rxW (p : String) : Except String GoRegexp :=
  if p = "^/user/(?P<id>[0-9]+)$" then .ok reUserId else .error "bad pattern"

/-- A literal GET route declaration (spec scenario A). -/
def cfgHealth : RouteConfig :=
  { path := "/health2", verb := "GET", template := "OK", templateFile := "",
    matchHeaders := [], responseHeaders := [] }

/-- A declaration whose path uses the regex-delimiter convention with an
invalid pattern inside. -/
def cfgBadRegex : RouteConfig :=
  { path := "/[/", verb := "GET", template := "X", templateFile := "",
    matchHeaders := [], responseHeaders := [] }

/-- The regex-path declaration of the spec's named-capture example. -/
def cfgUser : RouteConfig :=
  { path := "/^/user/(?P<id>[0-9]+)$/", verb := "GET", template := "Hi", templateFile := "",
    matchHeaders := [], responseHeaders := [] }

/-- A regexp-compiler stub for the unanchored pattern. -/
def rxU (p : String) : Except String GoRegexp :=
  if p = "user" then .ok reUserLit else .error "bad pattern"

/-- A declaration whose path is the delimiter-wrapped unanchored pattern
(the path /user/ starts and ends with a slash, so it is compiled as the
regex "user"). -/
def cfgSub : RouteConfig :=
  { path := "/user/", verb := "GET", template := "t", templateFile := "",
    matchHeaders := [], responseHeaders := [] }

/-- A compiled regex route around the unanchored pattern. -/
def routeSub : Route :=
  { pattern := "/user/", verb := "GET", isRegexp := true, regex := some reUserLit,
    matchHeaders := [], tmpl := "t", responseHeaders := [], templateSource := "inline" }

/-- A compiled regex route around the anchored named-group pattern. -/
def routeUser : Route :=
  { pattern := "/^/user/(?P<id>[0-9]+)$/", verb := "GET", isRegexp := true,
    regex := some reUserId, matchHeaders := [], tmpl := "Hi", responseHeaders := [],
    templateSource := "inline" }

/-- A request whose path merely contains the text the unanchored pattern
describes. -/
def reqSub : Request := { method := "GET", path := "/xuser42", header := [] }

/-- A literal route used for the precedence witness. -/
def routeDupA : Route :=
  { pattern := "/dup", verb := "GET", isRegexp := false, regex := none,
    matchHeaders := [], tmpl := "first", responseHeaders := [], templateSource := "inline" }

/-- A second literal route matching the same requests as `routeDupA`. -/
def routeDupB : Route :=
  { pattern := "/dup", verb := "GET", isRegexp := false, regex := none,
    matchHeaders := [], tmpl := "second", responseHeaders := [], templateSource := "inline" }

/-- A request matched by both duplicate routes. -/
def reqDup : Request := { method := "GET", path := "/dup", header := [] }

/-- A route requiring an Authorization header matching a regex that accepts
the empty string. -/
def routeAuth : Route :=
  { pattern := "/p", verb := "GET", isRegexp := false, regex := none,
    matchHeaders := [("authorization", { isRegex := true, regex := some reEmptyOK, literal := "" })],
    tmpl := "t", responseHeaders := [], templateSource := "inline" }

/-- A request carrying the Authorization header with an empty first value. -/
def reqEmptyAuth : Request :=
  { method := "GET", path := "/p", header := [("Authorization", [""])] }

/-- A template execution stub whose output carries surrounding whitespace. -/
def execPad : Unit → Unit → Except String String := fun _ _ => .ok " padded "

/-! ### Association-list and first-match helper lemmas -/

theorem lookup_assocSet_self {α β : Type} [BEq α] [LawfulBEq α]
    (m : List (α × β)) (k : α) (v : β) : (assocSet m k v).lookup k = some v := by
  induction m with
  | nil => simp [assocSet, List.lookup]
  | cons e rest ih =>
      obtain ⟨k2, v2⟩ := e
      by_cases h : k2 = k
      · simp [assocSet, h, List.lookup]
      · have hbe : (k2 == k) = false := by simp [h]
        have hbe2 : (k == k2) = false := by simp [Ne.symm h]
        simp [assocSet, hbe, List.lookup, hbe2, ih]

theorem lookup_assocSet_ne {α β : Type} [BEq α] [LawfulBEq α]
    (m : List (α × β)) (k k2 : α) (v : β) (h : k ≠ k2) :
    (assocSet m k2 v).lookup k = m.lookup k := by
  have hke : (k == k2) = false := by simp [h]
  induction m with
  | nil => simp only [assocSet, List.lookup, hke]
  | cons e rest ih =>
      obtain ⟨k3, v3⟩ := e
      by_cases h3 : k3 = k2
      · subst h3
        simp only [assocSet, beq_self_eq_true, if_true, List.lookup, hke]
      · have hbe : (k3 == k2) = false := by simp [h3]
        simp only [assocSet, hbe, if_false, List.lookup]
        cases hkk3 : k == k3 with
        | true => rfl
        | false => exact ih

theorem assocSet_eq_append {α β : Type} [BEq α] [LawfulBEq α]
    (m : List (α × β)) (k : α) (v : β) (h : m.lookup k = none) :
    assocSet m k v = m ++ [(k, v)] := by
  induction m with
  | nil => simp [assocSet]
  | cons e rest ih =>
      obtain ⟨k2, v2⟩ := e
      by_cases h2 : k2 = k
      · subst h2
        simp only [List.lookup, beq_self_eq_true] at h
        exact Option.noConfusion h
      · have hbe : (k2 == k) = false := by simp [h2]
        have hbe2 : (k == k2) = false := by simp [Ne.symm h2]
        simp only [List.lookup, hbe2] at h
        simp [assocSet, hbe, ih h]

theorem findSome?_eq_some_first {α β : Type} (f : α → Option β) :
    ∀ (l : List α) (b : β), l.findSome? f = some b ↔
      ∃ pre x post, l = pre ++ x :: post ∧ (∀ y ∈ pre, f y = none) ∧ f x = some b := by
  intro l
  induction l with
  | nil =>
      intro b
      constructor
      · intro h
        simp [List.findSome?] at h
      · rintro ⟨pre, x, post, hl, -, -⟩
        exact absurd hl.symm (List.append_ne_nil_of_right_ne_nil pre (List.cons_ne_nil x post))
  | cons a l ih =>
      intro b
      cases h : f a with
      | some c =>
          simp only [List.findSome?_cons, h]
          constructor
          · intro hcb
            exact ⟨[], a, l, rfl, by simp, by rw [h, hcb]⟩
          · rintro ⟨pre, x, post, hl, hpre, hx⟩
            cases pre with
            | nil =>
                simp at hl
                rw [hl.1] at h
                rw [h] at hx
                exact hx
            | cons p pre2 =>
                simp at hl
                have : f a = none := by
                  rw [hl.1]
                  exact hpre p (by simp)
                rw [this] at h
                cases h
      | none =>
          simp only [List.findSome?_cons, h]
          rw [ih b]
          constructor
          · rintro ⟨pre, x, post, hl, hpre, hx⟩
            refine ⟨a :: pre, x, post, by simp [hl], ?_, hx⟩
            intro y hy
            rcases List.mem_cons.mp hy with hy | hy
            · rw [hy]; exact h
            · exact hpre y hy
          · rintro ⟨pre, x, post, hl, hpre, hx⟩
            cases pre with
            | nil =>
                simp at hl
                rw [hl.1] at h
                rw [h] at hx
                cases hx
            | cons p pre2 =>
                simp at hl
                refine ⟨pre2, x, post, hl.2, ?_, hx⟩
                intro y hy
                exact hpre y (by simp [hy])

theorem buildParamsFrom_eq (subm : List String) :
    ∀ (names : List String) (i : Nat) (acc : List (String × String)),
      ((namedCapturesFrom subm i names).map Prod.fst).Nodup →
      (∀ k ∈ (namedCapturesFrom subm i names).map Prod.fst, acc.lookup k = none) →
      buildParamsFrom subm i names acc = acc ++ namedCapturesFrom subm i names := by
  intro names
  induction names with
  | nil =>
      intro i acc _ _
      simp [buildParamsFrom, namedCapturesFrom]
  | cons name rest ih =>
      intro i acc hnd hfr
      by_cases hc : 0 < i ∧ i < subm.length ∧ name ≠ ""
      · have hncf : namedCapturesFrom subm i (name :: rest) =
            (name, subm.getD i "") :: namedCapturesFrom subm (i + 1) rest := by
          simp [namedCapturesFrom, hc]
        rw [hncf] at hnd hfr ⊢
        simp only [List.map_cons, List.nodup_cons] at hnd
        have hlacc : acc.lookup name = none := hfr name (by simp)
        simp only [buildParamsFrom, if_pos hc]
        rw [assocSet_eq_append acc name (subm.getD i "") hlacc]
        have hfresh : ∀ k ∈ (namedCapturesFrom subm (i + 1) rest).map Prod.fst,
            (acc ++ [(name, subm.getD i "")]).lookup k = none := by
          intro k hk
          have hkne : k ≠ name := fun he => hnd.1 (he ▸ hk)
          have hbne : (k == name) = false := by simp [hkne]
          rw [List.lookup_append]
          have h1 : acc.lookup k = none := hfr k (by simp [hk])
          have h2 : List.lookup k [(name, subm.getD i "")] = none := by
            simp only [List.lookup, hbne]
          rw [h1, h2]
          rfl
        rw [ih (i + 1) (acc ++ [(name, subm.getD i "")]) hnd.2 hfresh]
        simp
      · have hncf : namedCapturesFrom subm i (name :: rest) =
            namedCapturesFrom subm (i + 1) rest := by
          simp [namedCapturesFrom, hc]
        rw [hncf] at hnd hfr
        simp only [buildParamsFrom, if_neg hc]
        rw [ih (i + 1) acc hnd hfr, hncf]

theorem renderResponseHeaders_untouched {Tmpl Ctx : Type}
    (exec : Tmpl → Ctx → Except String String) (ctx : Ctx) :
    ∀ (hdrs : List (String × Tmpl)) (st res : List (String × String)) (name : String),
      renderResponseHeaders exec hdrs ctx st = .ok res →
      name ∉ hdrs.map Prod.fst →
      res.lookup name = st.lookup name := by
  intro hdrs
  induction hdrs with
  | nil =>
      intro st res name h _
      simp only [renderResponseHeaders] at h
      cases h
      rfl
  | cons e rest ih =>
      obtain ⟨n0, t0⟩ := e
      intro st res name h hn
      simp only [List.map_cons, List.mem_cons, not_or] at hn
      cases hx : exec t0 ctx with
      | error e0 =>
          simp only [renderResponseHeaders, hx] at h
          exact Except.noConfusion h
      | ok v0 =>
          simp only [renderResponseHeaders, hx] at h
          by_cases htv : goTrimSpace v0 ≠ ""
          · rw [if_pos htv] at h
            rw [ih _ res name h hn.2]
            exact lookup_assocSet_ne st name n0 (goTrimSpace v0) hn.1
          · rw [if_neg htv] at h
            exact ih _ res name h hn.2

theorem renderResponseHeaders_ok_lookup {Tmpl Ctx : Type}
    (exec : Tmpl → Ctx → Except String String) (ctx : Ctx) :
    ∀ (hdrs : List (String × Tmpl)) (st res : List (String × String)),
      renderResponseHeaders exec hdrs ctx st = .ok res →
      (hdrs.map Prod.fst).Nodup →
      ∀ name t, (name, t) ∈ hdrs → st.lookup name = none →
        ∃ v, exec t ctx = .ok v ∧
          res.lookup name = (if goTrimSpace v = "" then none else some (goTrimSpace v)) := by
  intro hdrs
  induction hdrs with
  | nil =>
      intro st res _ _ name t hmem
      exact absurd hmem (List.not_mem_nil (name, t))
  | cons e rest ih =>
      obtain ⟨n0, t0⟩ := e
      intro st res h hnd name t hmem hstn
      simp only [List.map_cons, List.nodup_cons] at hnd
      cases hx : exec t0 ctx with
      | error e0 =>
          simp only [renderResponseHeaders, hx] at h
          exact Except.noConfusion h
      | ok v0 =>
          simp only [renderResponseHeaders, hx] at h
          rcases List.mem_cons.mp hmem with hhd | htl
          · injection hhd with h1 h2
            subst h1
            subst h2
            refine ⟨v0, hx, ?_⟩
            by_cases htv : goTrimSpace v0 = ""
            · rw [if_pos htv]
              rw [if_neg (by simp [htv])] at h
              rw [renderResponseHeaders_untouched exec ctx rest st res name h hnd.1]
              exact hstn
            · rw [if_neg htv]
              rw [if_pos (by simp [htv])] at h
              rw [renderResponseHeaders_untouched exec ctx rest _ res name h hnd.1]
              exact lookup_assocSet_self st name (goTrimSpace v0)
          · have hnmem : name ∈ rest.map Prod.fst :=
              List.mem_map.mpr ⟨(name, t), htl, rfl⟩
            have hname0 : name ≠ n0 := fun he => hnd.1 (he ▸ hnmem)
            by_cases htv : goTrimSpace v0 ≠ ""
            · rw [if_pos htv] at h
              exact ih _ res h hnd.2 name t htl
                (by rw [lookup_assocSet_ne st name n0 (goTrimSpace v0) hname0]; exact hstn)
            · rw [if_neg htv] at h
              exact ih _ res h hnd.2 name t htl hstn

theorem compileRoutesFrom_ok_forall (eng : Engine) (rx : String → Except String GoRegexp) :
    ∀ (cfgs : List RouteConfig) (i : Nat) (routes : List Route),
      compileRoutesFrom eng rx i cfgs = .ok routes →
      List.Forall₂ (fun rc r => CompileRoute eng rx rc = .ok r) cfgs routes := by
  intro cfgs
  induction cfgs with
  | nil =>
      intro i routes h
      simp only [compileRoutesFrom] at h
      cases h
      exact List.Forall₂.nil
  | cons rc rest ih =>
      intro i routes h
      simp only [compileRoutesFrom] at h
      cases hcr : CompileRoute eng rx rc with
      | error e => rw [hcr] at h; cases h
      | ok r =>
          rw [hcr] at h
          cases hrec : compileRoutesFrom eng rx (i + 1) rest with
          | error e => rw [hrec] at h; cases h
          | ok rs =>
              rw [hrec] at h
              cases h
              exact List.Forall₂.cons hcr (ih (i + 1) rs hrec)

theorem compileRoutesFrom_error_at (eng : Engine) (rx : String → Except String GoRegexp)
    (bad : RouteConfig) (post : List RouteConfig) (e : String)
    (herr : CompileRoute eng rx bad = .error e) :
    ∀ (pre : List RouteConfig) (k : Nat),
      (∀ rc ∈ pre, ∃ r, CompileRoute eng rx rc = .ok r) →
      compileRoutesFrom eng rx k (pre ++ bad :: post) =
        .error ("failed to compile route " ++ toString (k + pre.length) ++ " (" ++
          bad.verb ++ " " ++ bad.path ++ "): " ++ e) := by
  intro pre
  induction pre with
  | nil =>
      intro k _
      simp only [List.nil_append, compileRoutesFrom, herr, List.length_nil, Nat.add_zero]
  | cons rc rest ih =>
      intro k hok
      obtain ⟨r0, hr0⟩ := hok rc (by simp)
      have hrec := ih (k + 1) (fun rc2 hrc2 => hok rc2 (by simp [hrc2]))
      have harith : k + 1 + rest.length = k + (rc :: rest).length := by simp; omega
      rw [harith] at hrec
      simp only [List.cons_append, compileRoutesFrom, hr0]
      rw [List.append_eq, hrec]

/-! ### The claims -/

/-- C9: the bounded render task's outcome channel (templateDone) is buffered
with capacity one and receives exactly one send per task — whether the
template execution returns or panics — so the one send never blocks even
with no receiver and the abandoned task is not leaked; and in the
deadline-expiry branch of the select the dispatcher writes a 408 response
whose body reports the elapsed time, computed independently of the pending
task's result. -/
theorem bounded_render_outcome_channel :
    templateDoneCapacity = 1
    ∧ (∀ o : ExecOutcome, (renderTaskSends o).length = 1)
    ∧ (∀ o : ExecOutcome,
        sendsWouldBlock templateDoneCapacity (renderTaskSends o).length = false)
    ∧ (∀ elapsed buffered,
        (dispatchSelect buffered (SelectEvent.ctxDone elapsed)).status = 408
        ∧ (dispatchSelect buffered (SelectEvent.ctxDone elapsed)).body =
            timeoutBodyIntro ++ elapsed)
    ∧ (∀ elapsed b1 b2,
        dispatchSelect b1 (SelectEvent.ctxDone elapsed) =
          dispatchSelect b2 (SelectEvent.ctxDone elapsed)) := by
  refine ⟨rfl, ?_, ?_, ?_, ?_⟩
  · intro o
    cases o <;> rfl
  · intro o
    cases o <;> rfl
  · intro elapsed buffered
    exact ⟨rfl, rfl⟩
  · intro elapsed b1 b2
    rfl

/-- C6: when any step of ReloadConfig fails — loading the raw specs,
recompiling the routes, or rebuilding the middleware chain — the call
returns an error and the published server state (routes, engine, outward
handler) is exactly the state from before the reload attempt. -/
theorem reload_failure_leaves_state_unchanged {E H Cfg : Type}
    (s : ServerState E H) (load : Except String Cfg)
    (compileStep : Cfg → Except String (List Route × E))
    (chainStep : Cfg → Except String H) :
    ((ReloadConfig s load compileStep chainStep).2.isSome = true →
        (ReloadConfig s load compileStep chainStep).1 = s)
    ∧ (∀ e, load = .error e →
        ReloadConfig s load compileStep chainStep =
          (s, some ("failed to load config during reload: " ++ e)))
    ∧ (∀ cfg e, load = .ok cfg → compileStep cfg = .error e →
        ReloadConfig s load compileStep chainStep =
          (s, some ("failed to compile routes during reload: " ++ e)))
    ∧ (∀ cfg rts e, load = .ok cfg → compileStep cfg = .ok rts → chainStep cfg = .error e →
        ReloadConfig s load compileStep chainStep =
          (s, some ("failed to create middleware chain during reload: " ++ e))) := by
  refine ⟨?_, ?_, ?_, ?_⟩
  · intro hsome
    cases hl : load with
    | error e => simp [ReloadConfig, hl]
    | ok cfg =>
        cases hc : compileStep cfg with
        | error e => simp [ReloadConfig, hl, hc]
        | ok rts =>
            cases hh : chainStep cfg with
            | error e => simp [ReloadConfig, hl, hc, hh]
            | ok h =>
                simp [ReloadConfig, hl, hc, hh] at hsome
  · intro e hl
    simp [ReloadConfig, hl]
  · intro cfg e hl hc
    simp [ReloadConfig, hl, hc]
  · intro cfg rts e hl hc hh
    simp [ReloadConfig, hl, hc, hh]

/-- Witness for C6: a failing load step leaves a concrete server state
untouched and surfaces the wrapped load error. -/
theorem reload_failure_witness :
    ReloadConfig (ServerState.mk ([] : List Route) (0 : Nat) (0 : Nat) (0 : Nat))
        (Except.error "boom" : Except String Nat)
        (fun _ => Except.ok ([], 0)) (fun _ => Except.ok 0) =
      (ServerState.mk [] 0 0 0, some "failed to load config during reload: boom") :=
  (reload_failure_leaves_state_unchanged
      (ServerState.mk [] 0 0 0) (Except.error "boom")
      (fun _ => Except.ok ([], 0)) (fun _ => Except.ok 0)).2.1 "boom" rfl

/-- C3: a rule's header predicates are all required: the rule's header check
succeeds exactly when every configured header has a non-empty looked-up
value satisfying its matcher (so a missing header never matches); the
header-name lookup is case-insensitive; a literal predicate accepts
exactly the (case-sensitively) identical value; a regex predicate accepts
exactly the values its pattern matches. -/
theorem header_predicate_semantics (r : Route) (req : Request) :
    (r.matchesHeaders req = true ↔
      ∀ p ∈ r.matchHeaders,
        getHeaderIgnoreCase req p.1 ≠ ""
        ∧ matchHeaderValue p.2 (getHeaderIgnoreCase req p.1) = true)
    ∧ (∀ n1 n2 : String, lowerStr n1 = lowerStr n2 →
        getHeaderIgnoreCase req n1 = getHeaderIgnoreCase req n2)
    ∧ (∀ (m : HeaderMatcher) (v : String), m.isRegex = false →
        (matchHeaderValue m v = true ↔ v = m.literal))
    ∧ (∀ (m : HeaderMatcher) (v : String) (re : GoRegexp),
        m.isRegex = true → m.regex = some re →
        (matchHeaderValue m v = true ↔ re.matchString v = true))
    ∧ (∀ p ∈ r.matchHeaders, getHeaderIgnoreCase req p.1 = "" →
        r.matchesHeaders req = false) := by
  refine ⟨?_, ?_, ?_, ?_, ?_⟩
  · rw [Route.matchesHeaders, List.all_eq_true]
    constructor
    · intro hall p hp
      have := hall p hp
      by_cases hv : getHeaderIgnoreCase req p.1 = ""
      · rw [if_pos hv] at this
        cases this
      · rw [if_neg hv] at this
        exact ⟨hv, this⟩
    · intro hall p hp
      obtain ⟨hv, hm⟩ := hall p hp
      rw [if_neg hv]
      exact hm
  · intro n1 n2 h
    simp only [getHeaderIgnoreCase, h]
  · intro m v hm
    simp [matchHeaderValue, hm]
  · intro m v re hm hre
    simp [matchHeaderValue, hm, hre]
  · intro p hp hempty
    cases hall : r.matchesHeaders req with
    | false => rfl
    | true =>
        rw [Route.matchesHeaders, List.all_eq_true] at hall
        have := hall p hp
        rw [if_pos hempty] at this
        cases this

/-- Witness for C3 (spec scenario C): the Authorization rule's header check
succeeds on a request carrying a matching Bearer token, via the
characterization of the header check. -/
theorem header_predicate_witness :
    (Route.mk "/p" "GET" false none
        [("authorization", HeaderMatcher.mk false none "Bearer xyz")] "t" [] "inline").matchesHeaders
      (Request.mk "GET" "/p" [("Authorization", ["Bearer xyz"])]) = true :=
  (header_predicate_semantics
      (Route.mk "/p" "GET" false none
        [("authorization", HeaderMatcher.mk false none "Bearer xyz")] "t" [] "inline")
      (Request.mk "GET" "/p" [("Authorization", ["Bearer xyz"])])).1.mpr (by decide)

/-- C10: when a configured header is present on the request but its first
value is the empty string, the looked-up value is the empty string —
indistinguishable from a missing header — and the rule does not match,
whatever the matcher is (in particular for a regex accepting the empty
string). -/
theorem empty_header_value_never_matches
    (r : Route) (req : Request) (n n0 : String) (hm : HeaderMatcher) (vs : List String)
    (hmem : (n, hm) ∈ r.matchHeaders)
    (hpresent : (n0, vs) ∈ req.header)
    (hcase : lowerStr n0 = lowerStr n)
    (hfirst : vs.headD "" = "")
    (hlook : getHeaderIgnoreCase req n = "") :
    r.matchesHeaders req = false ∧ r.MatchRequest req = none := by
  have hmh : r.matchesHeaders req = false := by
    cases hall : r.matchesHeaders req with
    | false => rfl
    | true =>
        rw [Route.matchesHeaders, List.all_eq_true] at hall
        have := hall (n, hm) hmem
        rw [if_pos hlook] at this
        cases this
  refine ⟨hmh, ?_⟩
  rw [Route.MatchRequest]
  by_cases hv : r.matchesVerb req.method = true
  · rw [if_pos hv]
    cases hp : (if r.isRegexp then r.matchRegexPattern req.path else r.matchLiteralPattern req.path) with
    | none => rfl
    | some m => rw [hmh]; simp
  · rw [if_neg hv]

/-- Witness for C10: a route requiring an Authorization header matched by a
regex that accepts the empty string still rejects a request whose
Authorization header is present with an empty value. -/
theorem empty_header_value_witness :
    reEmptyOK.matchString "" = true ∧ routeAuth.MatchRequest reqEmptyAuth = none :=
  ⟨by decide,
    (empty_header_value_never_matches routeAuth reqEmptyAuth "authorization" "Authorization"
      (HeaderMatcher.mk true (some reEmptyOK) "") [""]
      (by decide) (by decide) (by decide) (by decide) (by decide)).2⟩

/-- C2: findMatchingRoute returns the match of the first rule in declaration
order that matches the request, or none when no rule matches; and
CompileRoutes preserves the declared order verbatim — on success the
compiled list corresponds one-to-one, in order, with the declarations, with
no reordering or prioritization.  Hence of two rules matching the same
request the one declared earlier always wins. -/
theorem first_declared_rule_wins (routes : List Route) (req : Request) (m : RouteMatch)
    (eng : Engine) (rx : String → Except String GoRegexp) (cfgs : List RouteConfig) :
    (findMatchingRoute routes req = some m ↔
      ∃ pre rt post, routes = pre ++ rt :: post
        ∧ (∀ r2 ∈ pre, r2.MatchRequest req = none)
        ∧ rt.MatchRequest req = some m)
    ∧ (findMatchingRoute routes req = none ↔ ∀ r2 ∈ routes, r2.MatchRequest req = none)
    ∧ (CompileRoutes eng rx cfgs = .ok routes →
        List.Forall₂ (fun rc r2 => CompileRoute eng rx rc = .ok r2) cfgs routes) := by
  refine ⟨?_, ?_, ?_⟩
  · exact findSome?_eq_some_first (fun rt => rt.MatchRequest req) routes m
  · exact List.findSome?_eq_none_iff
  · exact fun h => compileRoutesFrom_ok_forall eng rx cfgs 0 routes h

/-- Witness for C2: of two identical literal rules differing only in their
renderer, the first declared one supplies the match. -/
theorem first_declared_rule_wins_witness :
    findMatchingRoute [routeDupA, routeDupB] reqDup = some (RouteMatch.mk routeDupA []) :=
  (first_declared_rule_wins [routeDupA, routeDupB] reqDup (RouteMatch.mk routeDupA [])
      engId rxW []).1.mpr
    ⟨[], routeDupA, [routeDupB], rfl, by simp, by decide⟩

/-- C7: compilation fails fast on the first invalid spec in declaration
order: when every spec before it compiles and it fails with cause e,
CompileRoutes returns exactly the error naming the failing spec's index
(the number of specs before it), its verb and path (the offending pattern)
and the underlying cause — and, being the error case, carries no partial
route list (Go returns nil). -/
theorem compile_fails_fast (eng : Engine) (rx : String → Except String GoRegexp)
    (pre post : List RouteConfig) (bad : RouteConfig) (e : String)
    (hok : ∀ rc ∈ pre, ∃ r, CompileRoute eng rx rc = .ok r)
    (herr : CompileRoute eng rx bad = .error e) :
    CompileRoutes eng rx (pre ++ bad :: post) =
      .error ("failed to compile route " ++ toString pre.length ++ " (" ++
        bad.verb ++ " " ++ bad.path ++ "): " ++ e) := by
  have h := compileRoutesFrom_error_at eng rx bad post e herr pre 0 hok
  rw [Nat.zero_add] at h
  exact h

/-- Witness for C7: a valid literal spec followed by a spec whose path regex
is invalid compiles to the index-1 error and no route list. -/
theorem compile_fails_fast_witness :
    CompileRoutes engId rxW [cfgHealth, cfgBadRegex] =
      .error "failed to compile route 1 (GET /[/): failed to compile regex pattern \"[\": bad pattern" := by
  have h := compile_fails_fast engId rxW [cfgHealth] [] cfgBadRegex
      "failed to compile regex pattern \"[\": bad pattern"
      (fun rc hrc => by
        rw [List.mem_singleton.mp hrc]
        exact ⟨Route.mk "/health2" "GET" false none [] "OK" [] "inline", by decide⟩)
      (by decide)
  exact h

/-- C1 (amended): for a compiled regex rule the path check succeeds exactly
when the rule's pattern matches somewhere inside the request path — Go's
FindStringSubmatch search semantics — not only when it matches the entire
path; the whole path is constrained only when the pattern itself carries
anchors. -/
theorem regex_path_check_is_search (r : Route) (re : GoRegexp) (path : String)
    (hre : r.regex = some re) :
    (r.matchRegexPattern path).isSome = true ↔
      ∃ st ∈ List.range (path.data.length + 1),
        matchR path.data (matchFuel re.re path.data) re.re st [] ≠ [] := by
  have hstep : ∀ st : Nat,
      ((match (matchR path.data (matchFuel re.re path.data) re.re st []).head? with
        | some pc => some (st, pc.1, pc.2)
        | none => (none : Option (Nat × Nat × Caps))).isSome = true)
      ↔ matchR path.data (matchFuel re.re path.data) re.re st [] ≠ [] := by
    intro st
    cases hl : matchR path.data (matchFuel re.re path.data) re.re st [] with
    | nil => simp
    | cons a l2 => simp
  have hff : ((re.findFirst path.data).isSome = true) ↔
      ∃ st ∈ List.range (path.data.length + 1),
        matchR path.data (matchFuel re.re path.data) re.re st [] ≠ [] := by
    simp only [GoRegexp.findFirst, List.findSome?_isSome_iff]
    constructor
    · rintro ⟨st, hmem, hsome⟩
      exact ⟨st, hmem, (hstep st).mp hsome⟩
    · rintro ⟨st, hmem, hne⟩
      exact ⟨st, hmem, (hstep st).mpr hne⟩
  rw [← hff]
  simp only [Route.matchRegexPattern, hre, GoRegexp.findStringSubmatch]
  cases hf : re.findFirst path.data with
  | none => simp
  | some v =>
      obtain ⟨st, en, caps⟩ := v
      simp

/-- Witness for C1: the anchored named-group pattern accepts /user/42
through the search characterization (starting offset 0). -/
theorem regex_path_check_witness :
    (routeUser.matchRegexPattern "/user/42").isSome = true :=
  (regex_path_check_is_search routeUser reUserId "/user/42" rfl).mpr
    ⟨0, by decide, by decide⟩

/-- C1 counterexample: the unanchored pattern "user" makes GET /xuser42
match the rule (method matching included) although the pattern does not
match the entire path — the path only contains a matching substring; the
claimed full-match semantics does not hold. -/
theorem regex_path_check_counterexample :
    CompileRoute engId rxU cfgSub = .ok routeSub
    ∧ routeSub.matchesVerb "GET" = true
    ∧ routeSub.MatchRequest reqSub = some (RouteMatch.mk routeSub [])
    ∧ reUserLit.fullMatch "/xuser42" = false :=
  ⟨by decide, by decide, by decide, by decide⟩

/-- C4: a rule compiled from a literal spec (path P, method M, no header
predicates) keeps pattern P and the uppercased trimmed method, and matches
a request exactly when the request path is the string P verbatim and the
request method equals the rule's method ignoring ASCII case. -/
theorem literal_route_match_iff (eng : Engine) (rx : String → Except String GoRegexp)
    (rc : RouteConfig) (r : Route) (req : Request)
    (hlit : rc.IsRegexPattern = false)
    (hnoh : rc.matchHeaders = [])
    (hcomp : CompileRoute eng rx rc = .ok r) :
    r.pattern = rc.path
    ∧ r.verb = upperStr (goTrimSpace rc.verb)
    ∧ ((r.MatchRequest req).isSome = true ↔
        (req.path = rc.path ∧ eqFold r.verb req.method = true)) := by
  simp only [CompileRoute, hlit, hnoh, Bool.false_eq_true, if_false, compileHeaderMatchers] at hcomp
  cases hrh : compileResponseHeaders eng rc rc.responseHeaders with
  | error e =>
      rw [hrh] at hcomp
      exact Except.noConfusion hcomp
  | ok respHdrs =>
      rw [hrh] at hcomp
      cases hct : compileTemplate eng rc with
      | error e =>
          rw [hct] at hcomp
          exact Except.noConfusion hcomp
      | ok handle =>
          rw [hct] at hcomp
          injection hcomp with hr
          subst hr
          refine ⟨rfl, rfl, ?_⟩
          by_cases hv : eqFold (RouteConfig.GetNormalizedVerb rc) req.method = true
          · by_cases hp : req.path = rc.path
            · simp [Route.MatchRequest, Route.matchesVerb, Route.matchLiteralPattern,
                Route.matchesHeaders, RouteConfig.GetNormalizedVerb, hlit, hv, hp]
            · simp [Route.MatchRequest, Route.matchesVerb, Route.matchLiteralPattern,
                Route.matchesHeaders, RouteConfig.GetNormalizedVerb, hlit, hv, hp]
          · simp only [RouteConfig.GetNormalizedVerb] at hv ⊢
            simp [Route.MatchRequest, Route.matchesVerb, hv]

/-- Witness for C4 (spec scenario A): the compiled /health2 rule matches
GET /health2. -/
theorem literal_route_match_witness :
    ((Route.mk "/health2" "GET" false none [] "OK" [] "inline").MatchRequest
      (Request.mk "GET" "/health2" [])).isSome = true :=
  (literal_route_match_iff engId rxW cfgHealth
      (Route.mk "/health2" "GET" false none [] "OK" [] "inline")
      (Request.mk "GET" "/health2" [])
      (by decide) rfl (by decide)).2.2.mpr ⟨rfl, by decide⟩

/-- C5: a successful literal match carries a concrete empty parameter map,
and a successful regex match carries exactly the named-capture map — one
entry per named sub-expression (given the pattern's group names are
distinct), keyed by the group name and valued by the captured submatch
text, unnamed groups contributing no entry; the map is always a concrete
(never nil) value. -/
theorem match_params_exact (r : Route) (path : String) :
    (∀ m, r.matchLiteralPattern path = some m → m.route = r ∧ m.params = [])
    ∧ (∀ re subm m, r.regex = some re →
        re.findStringSubmatch path = some subm →
        ((namedCapturesFrom subm 0 re.names).map Prod.fst).Nodup →
        r.matchRegexPattern path = some m →
        m.route = r ∧ m.params = namedCapturesFrom subm 0 re.names) := by
  constructor
  · intro m hm
    rw [Route.matchLiteralPattern] at hm
    by_cases hp : path = r.pattern
    · rw [if_pos hp] at hm
      injection hm with h
      subst h
      exact ⟨rfl, rfl⟩
    · rw [if_neg hp] at hm
      exact Option.noConfusion hm
  · intro re subm m hre hfind hnd hm
    simp only [Route.matchRegexPattern, hre, hfind] at hm
    injection hm with h
    subst h
    refine ⟨rfl, ?_⟩
    have hb := buildParamsFrom_eq subm re.names 0 [] hnd (fun k _ => rfl)
    simpa using hb

/-- Witness for C5 (the spec's named-capture example): matching /user/42
against the anchored pattern yields exactly the parameter map of its one
named group. -/
theorem match_params_witness :
    (RouteMatch.mk routeUser [("id", "42")]).params =
      namedCapturesFrom ["/user/42", "42"] 0 reUserId.names :=
  ((match_params_exact routeUser "/user/42").2 reUserId ["/user/42", "42"]
      (RouteMatch.mk routeUser [("id", "42")]) rfl (by decide) (by decide) (by decide)).2

/-- C8 counterexample: a response-header template rendering " padded " is
set to the trimmed value "padded" — the final header value differs from the
byte-for-byte output of directly executing the same template against the
same context. -/
theorem response_header_roundtrip_counterexample :
    renderResponseHeaders execPad [("x-demo", ())] () [] = .ok [("x-demo", "padded")]
    ∧ execPad () () = .ok " padded "
    ∧ "padded" ≠ " padded " :=
  ⟨by decide, rfl, by decide⟩

/-- C8 (amended): when every response-header template of a route executes
successfully (and the configured header names are distinct, as keys of a Go
map are), each header's final value is exactly the whitespace-trimmed
output of directly executing that header's template against the same
context; a header whose trimmed rendering is empty is omitted. -/
theorem response_header_trimmed_roundtrip {Tmpl Ctx : Type}
    (exec : Tmpl → Ctx → Except String String) (hdrs : List (String × Tmpl)) (ctx : Ctx)
    (res : List (String × String))
    (hok : renderResponseHeaders exec hdrs ctx [] = .ok res)
    (hnd : (hdrs.map Prod.fst).Nodup)
    (name : String) (t : Tmpl) (hmem : (name, t) ∈ hdrs) :
    ∃ v, exec t ctx = .ok v ∧
      res.lookup name = (if goTrimSpace v = "" then none else some (goTrimSpace v)) :=
  renderResponseHeaders_ok_lookup exec ctx hdrs [] res hok hnd name t hmem rfl

/-- Witness for C8: the rendered x-demo header of the padded template holds
the trimmed value. -/
theorem response_header_trimmed_witness :
    ([("x-demo", "padded")] : List (String × String)).lookup "x-demo" = some "padded" := by
  obtain ⟨v, hv, hl⟩ := response_header_trimmed_roundtrip execPad [("x-demo", ())] ()
      [("x-demo", "padded")] (by decide) (by decide) "x-demo" () (by decide)
  simp only [execPad] at hv
  injection hv with hveq
  subst hveq
  rw [hl]
  decide

end Mockingjay
